import Mathlib

/-!
Verification of the Objective-C runtime data parser
(`strongarm/macho/objc_runtime_data_parser.py`).

The parser reads an already-parsed Mach-O binary through a narrow interface
(`MachoBinary` and the ctypes struct readers from `arch_independent_structs`);
that interface is modelled here as the structure `MachoBinary` whose fields
are the accessor functions the parser calls.  Every definition below is a
direct translation of the corresponding Python function.
-/

namespace Strongarm

/-- Python truthiness of an `Optional[int]` value: `None` and `0` are falsy.
Used to translate `not self.implementation`. -/
def pyFalsy : Option Nat → Bool
  | none => true
  | some n => n == 0

/-- Python `x &= ~0x3` on a non-negative int: clear the two low bits. -/
def maskLowTwoBits (x : Nat) : Nat := x - x % 4

/-- `ObjcSelref(source_address, destination_address, selector_literal)`. -/
structure ObjcSelref where
  source_address : Nat
  destination_address : Nat
  selector_literal : String
deriving Repr, DecidableEq

/-- `ObjcSelector(name, selref, implementation)`; the constructor also sets
`is_external_definition = (not self.implementation)`. -/
structure ObjcSelector where
  name : String
  selref : Option ObjcSelref
  implementation : Option Nat
  is_external_definition : Bool
deriving Repr, DecidableEq

/-- The `ObjcSelector.__init__` constructor. -/
def mkObjcSelector (name : String) (selref : Option ObjcSelref)
    (impl : Option Nat) : ObjcSelector :=
  { name := name, selref := selref, implementation := impl,
    is_external_definition := pyFalsy impl }

/-- `ObjcClass(name, selectors)`. -/
structure ObjcClass where
  name : String
  selectors : List ObjcSelector
deriving Repr, DecidableEq

/-- A section as the parser sees it: `selref_sect.address` and
`selref_sect.cmd.size`. -/
structure SectionInfo where
  address : Nat
  size : Nat
deriving Repr, DecidableEq

/-- `struct __objc_class` fields read by `ObjcClassRawStruct`. -/
structure ObjcClassRawStruct where
  metaclass : Nat
  superclass : Nat
  cache : Nat
  vtable : Nat
  data : Nat
deriving Repr, DecidableEq

/-- `struct __objc_data` fields read by `ObjcDataRawStruct`. -/
structure ObjcDataRawStruct where
  flags : Nat
  instance_start : Nat
  instance_size : Nat
  reserved : Nat
  ivar_layout : Nat
  name : Nat
  base_methods : Nat
deriving Repr, DecidableEq

/-- `struct __objc_method` fields read by `ObjcMethodStruct`. -/
structure ObjcMethodStruct where
  name : Nat
  signature : Nat
  implementation : Nat
deriving Repr, DecidableEq

/-- `struct __objc_methlist` header fields read by `ObjcMethodListStruct`. -/
structure ObjcMethodListStruct where
  flags : Nat
  methcount : Nat
deriving Repr, DecidableEq

/-- The `nlist`/`nlist_64` fields the parser reads: `n_un.n_strx`, `n_desc`. -/
structure NlistStruct where
  n_strx : Nat
  n_desc : Nat
deriving Repr, DecidableEq

/-- A `DylibCommandStruct`: its file offset and `dylib.name.offset`. -/
structure DylibCommandStruct where
  fileoff : Nat
  name_offset : Nat
deriving Repr, DecidableEq

/-- The `LC_SYMTAB` fields used: `stroff`. -/
structure SymtabCommand where
  stroff : Nat
deriving Repr, DecidableEq

/-- The `LC_DYSYMTAB` fields used: `iundefsym`, `nundefsym`. -/
structure DysymtabCommand where
  iundefsym : Nat
  nundefsym : Nat
deriving Repr, DecidableEq

/-- The slice of the `MachoBinary` interface the parser consumes.
`objc_classlist` holds the word values of the `__objc_classlist` content
(the byte-to-word decoding is done by ctypes, external to the parser).
`readWord` is `get_content_from_virtual_address` followed by the ctypes
word decode; `readCStringVirt`/`readCStringFile` are
`get_full_string_from_start_address` with `virtual=True`/`False`;
the struct readers model the ctypes struct constructors. -/
structure MachoBinary where
  wordSize : Nat
  objc_selrefs : Option SectionInfo
  objc_classlist : Option (List Nat)
  readWord : Nat → Nat
  readCStringVirt : Nat → String
  readCStringFile : Nat → String
  virtualBase : Nat
  fileOffsetForVA : Nat → Nat
  readObjcClassVirt : Nat → ObjcClassRawStruct
  readObjcDataVirt : Nat → ObjcDataRawStruct
  readMethlist : Nat → ObjcMethodListStruct
  methlistSizeof : Nat
  readMethodEnt : Nat → ObjcMethodStruct
  methodEntSizeof : Nat
  symtab : SymtabCommand
  symtab_contents : List NlistStruct
  dysymtab : DysymtabCommand
  load_dylib_commands : List DylibCommandStruct

/-- `ObjcDataEntryParser.get_selref_for_objc_method`, fused with the
`_selref_pointer_map` dict construction: the dict maps each selref's
`destination_address` to the selref, later list entries overwriting
earlier ones, and the lookup returns the entry for `name_ptr` or `None`. -/
def get_selref_for_objc_method (selrefs : List ObjcSelref) (name_ptr : Nat) :
    Option ObjcSelref :=
  selrefs.foldl
    (fun acc r => if r.destination_address = name_ptr then some r else acc) none

/-- Loop body of `ObjcDataEntryParser._get_selectors_from_methlist`:
walk `methcount` entries starting at `method_entry_off`, advancing by
`method_ent.sizeof` each step. -/
def methlistWalk (b : MachoBinary) (selrefs : List ObjcSelref) :
    Nat → Nat → List ObjcSelector
  | 0, _ => []
  | Nat.succ k, method_entry_off =>
    let method_ent := b.readMethodEnt method_entry_off
    -- byte-align IMP: `method_ent.implementation &= ~0x3`
    let imp := maskLowTwoBits method_ent.implementation
    let symbol_name := b.readCStringVirt method_ent.name
    let selref := get_selref_for_objc_method selrefs method_ent.name
    mkObjcSelector symbol_name selref (some imp) ::
      methlistWalk b selrefs k (method_entry_off + b.methodEntSizeof)

/-- `ObjcDataEntryParser._get_selectors_from_methlist`: the first entry
appears directly after the `ObjcMethodListStruct` header. -/
def get_selectors_from_methlist (b : MachoBinary) (selrefs : List ObjcSelref)
    (methlist : ObjcMethodListStruct) (methlist_file_ptr : Nat) :
    List ObjcSelector :=
  methlistWalk b selrefs methlist.methcount (methlist_file_ptr + b.methlistSizeof)

/-- `ObjcDataEntryParser._get_methlist`: `None` when `base_methods == 0`,
otherwise the method-list header read at the file offset of `base_methods`. -/
def get_methlist (b : MachoBinary) (data : ObjcDataRawStruct) :
    Option (ObjcMethodListStruct × Nat) :=
  if data.base_methods = 0 then none
  else
    let methlist_file_ptr := b.fileOffsetForVA data.base_methods
    some (b.readMethlist methlist_file_ptr, methlist_file_ptr)

/-- `ObjcDataEntryParser.get_selectors`. -/
def get_selectors (b : MachoBinary) (selrefs : List ObjcSelref)
    (data : ObjcDataRawStruct) : List ObjcSelector :=
  match get_methlist b data with
  | none => []
  | some (methlist, methlist_file_ptr) =>
    get_selectors_from_methlist b selrefs methlist methlist_file_ptr

/-- `ObjcRuntimeDataParser._parse_selrefs`. -/
def parse_selrefs (b : MachoBinary) : List ObjcSelref :=
  match b.objc_selrefs with
  | none => []
  | some selref_sect =>
    (List.range (selref_sect.size / b.wordSize)).map fun i =>
      let selref_addr := selref_sect.address + i * b.wordSize
      let selref_val := b.readWord selref_addr
      ObjcSelref.mk selref_addr selref_val (b.readCStringVirt selref_val)

/-- The per-selector test of the `selector_for_selref` loop: selectors with
`None` selref are skipped (`if not sel.selref: continue`), the rest match
when `sel.selref.source_address == selref_addr`.  `selref_addr` is an
`Option Nat` because the Python caller may pass `None`, which compares
unequal to every int. -/
def selrefSourceMatches (selref_addr : Option Nat) (sel : ObjcSelector) : Bool :=
  match sel.selref with
  | none => false
  | some r => some r.source_address == selref_addr

/-- Inner loop of `selector_for_selref`: return the first selector of one
class that passes `selrefSourceMatches`. -/
def findSelectorInList (selref_addr : Option Nat) (l : List ObjcSelector) :
    Option ObjcSelector :=
  l.find? (selrefSourceMatches selref_addr)

/-- Outer loop of `selector_for_selref`: scan every class. -/
def findSelectorInClasses (selref_addr : Option Nat) :
    List ObjcClass → Option ObjcSelector
  | [] => none
  | objc_class :: rest =>
    match findSelectorInList selref_addr objc_class.selectors with
    | some sel => some sel
    | none => findSelectorInClasses selref_addr rest

/-- `ObjcRuntimeDataParser.selector_for_selref`, over the parser's parsed
`classes` and `_selrefs`. -/
def selector_for_selref (classes : List ObjcClass) (selrefs : List ObjcSelref)
    (selref_addr : Option Nat) : Option ObjcSelector :=
  match findSelectorInClasses selref_addr classes with
  | some sel => some sel
  | none =>
    -- selref wasn't referenced in classes implemented within the binary;
    -- make sure it's a valid selref
    match (selrefs.filter fun x => some x.source_address = selref_addr).head? with
    | none => none
    | some r => some (mkObjcSelector r.selector_literal (some r) none)

/-- `ObjcRuntimeDataParser.get_method_imp_addresses`. -/
def get_method_imp_addresses (classes : List ObjcClass) (selector : String) :
    List (Option Nat) :=
  (classes.map fun objc_class =>
    ((objc_class.selectors.filter fun objc_sel => objc_sel.name = selector).map
      fun objc_sel => objc_sel.implementation)).flatten

/-- `ObjcRuntimeDataParser._get_classlist_pointers`: empty when the
`__objc_classlist` section is missing, else its word values. -/
def get_classlist_pointers (b : MachoBinary) : List Nat :=
  match b.objc_classlist with
  | none => []
  | some classlist_entries => classlist_entries

/-- `ObjcRuntimeDataParser._get_objc_class_from_classlist_pointer`:
read the class struct and mask the two flag bits off `data`. -/
def get_objc_class_from_classlist_pointer (b : MachoBinary)
    (entry_location : Nat) : ObjcClassRawStruct :=
  let class_entry := b.readObjcClassVirt entry_location
  { class_entry with data := maskLowTwoBits class_entry.data }

/-- `ObjcRuntimeDataParser._get_objc_data_from_objc_class`: `None`
(skip, after logging) when `data_entry.name` is below the virtual base. -/
def get_objc_data_from_objc_class (b : MachoBinary)
    (objc_class : ObjcClassRawStruct) : Option ObjcDataRawStruct :=
  let data_entry := b.readObjcDataVirt objc_class.data
  if data_entry.name < b.virtualBase then none
  else some data_entry

/-- `ObjcRuntimeDataParser._parse_objc_data_entry`. -/
def parse_objc_data_entry (b : MachoBinary) (selrefs : List ObjcSelref)
    (objc_data_raw : ObjcDataRawStruct) : ObjcClass :=
  { name := b.readCStringVirt objc_data_raw.name,
    selectors := get_selectors b selrefs objc_data_raw }

/-- `ObjcRuntimeDataParser._parse_static_objc_runtime_info`.  The Python
guard `if objc_class:` always passes (the struct reader returns an object),
so the only filter is the data-entry sanity check. -/
def parse_static_objc_runtime_info (b : MachoBinary)
    (selrefs : List ObjcSelref) : List ObjcClass :=
  (get_classlist_pointers b).filterMap fun ptr =>
    let objc_class := get_objc_class_from_classlist_pointer b ptr
    match get_objc_data_from_objc_class b objc_class with
    | none => none
    | some objc_data_struct =>
      some (parse_objc_data_entry b selrefs objc_data_struct)

/-- The parser's `self.classes`, as built by `__init__`:
`_parse_static_objc_runtime_info` over `self._selrefs = _parse_selrefs()`. -/
def parser_classes (b : MachoBinary) : List ObjcClass :=
  parse_static_objc_runtime_info b (parse_selrefs b)

/-- `selector_for_selref` as reachable from a constructed parser. -/
def parser_selector_for_selref (b : MachoBinary) (selref_addr : Option Nat) :
    Option ObjcSelector :=
  selector_for_selref (parser_classes b) (parse_selrefs b) selref_addr

/-- `ObjcRuntimeDataParser._library_ordinal_from_n_desc`. -/
def library_ordinal_from_n_desc (n_desc : Nat) : Nat :=
  (n_desc >>> 8) &&& 0xff

/-- Python list indexing: non-negative indices from the front, negative
indices from the back, `None` for `IndexError`. -/
def pyListGet (l : List α) (i : Int) : Option α :=
  if 0 ≤ i then l.get? i.toNat
  else if (-i).toNat ≤ l.length then l.get? (l.length - (-i).toNat)
  else none

/-- `ObjcRuntimeDataParser._dylib_from_library_ordinal`:
`self.binary.load_dylib_commands[ordinal - 1]` with Python indexing. -/
def dylib_from_library_ordinal (b : MachoBinary) (ordinal : Nat) :
    Option DylibCommandStruct :=
  pyListGet b.load_dylib_commands ((ordinal : Int) - 1)

/-- Python dict assignment `d[k] = v`: later assignments win at lookup. -/
def dictSet (d : List (String × String)) (k v : String) :
    List (String × String) :=
  d ++ [(k, v)]

/-- Python dict lookup: the last assignment to `k` wins. -/
def dictGet (d : List (String × String)) (k : String) : Option String :=
  d.foldl (fun acc kv => if kv.1 = k then some kv.2 else acc) none

/-- One iteration of the `_parse_linked_dylib_symbols` loop body, split out:
the name of the undefined symbol at slice index `idx`, when in range. -/
def undefSymNameAt (b : MachoBinary) (idx : Nat) : Option String :=
  (b.symtab_contents.get? (b.dysymtab.iundefsym + idx)).map fun sym =>
    b.readCStringFile (b.symtab.stroff + sym.n_strx)

/-- The dylib install-name recorded for the undefined symbol at slice index
`idx`, when every lookup is in range. -/
def undefSymPathAt (b : MachoBinary) (idx : Nat) : Option String :=
  (b.symtab_contents.get? (b.dysymtab.iundefsym + idx)).bind fun sym =>
    (dylib_from_library_ordinal b
        (library_ordinal_from_n_desc sym.n_desc)).map fun source_dylib =>
      b.readCStringVirt
        (source_dylib.fileoff + source_dylib.name_offset + b.virtualBase)

/-- The loop of `ObjcRuntimeDataParser._parse_linked_dylib_symbols`:
`k` iterations remain, `idx` is the current slice index, `acc` the dict so
far.  A Python `IndexError` (symbol or dylib index out of range) aborts the
whole construction, modelled as `none`. -/
def parseLinkedDylibSymbolsLoop (b : MachoBinary) :
    Nat → Nat → List (String × String) → Option (List (String × String))
  | 0, _, acc => some acc
  | Nat.succ k, idx, acc =>
    (b.symtab_contents.get? (b.dysymtab.iundefsym + idx)).bind fun sym =>
      let symbol_name := b.readCStringFile (b.symtab.stroff + sym.n_strx)
      let library_ordinal := library_ordinal_from_n_desc sym.n_desc
      (dylib_from_library_ordinal b library_ordinal).bind fun source_dylib =>
        let source_name := b.readCStringVirt
          (source_dylib.fileoff + source_dylib.name_offset + b.virtualBase)
        parseLinkedDylibSymbolsLoop b k (idx + 1)
          (dictSet acc symbol_name source_name)

/-- `ObjcRuntimeDataParser._parse_linked_dylib_symbols`. -/
def parse_linked_dylib_symbols (b : MachoBinary) :
    Option (List (String × String)) :=
  parseLinkedDylibSymbolsLoop b b.dysymtab.nundefsym 0 []

/-- `ObjcRuntimeDataParser.path_for_external_symbol` over the parsed dict. -/
def path_for_external_symbol (d : List (String × String)) (symbol : String) :
    Option String :=
  dictGet d symbol

/-- A small concrete binary exercising every code path: two selrefs
(one attached to a local method, one not), one class with two methods
(the second method's name pointer matches no selref and its raw `imp`
field is `2`, masking to `0`), and one undefined symbol bound to one
dylib with library ordinal 1. -/
def b0 : MachoBinary where
  wordSize := 8
  objc_selrefs := some ⟨4096, 16⟩
  objc_classlist := some [12288]
  readWord := fun a => if a = 4096 then 8192 else if a = 4104 then 8200 else 0
  readCStringVirt := fun a =>
    if a = 8192 then "localSel" else if a = 8200 then "externalSel"
    else if a = 20480 then "MyClass" else if a = 296 then "libfoo" else ""
  readCStringFile := fun a => if a = 2052 then "extSym" else ""
  virtualBase := 256
  fileOffsetForVA := fun a => if a = 24576 then 1536 else 0
  readObjcClassVirt := fun a =>
    if a = 12288 then ⟨0, 0, 0, 0, 16384⟩ else ⟨0, 0, 0, 0, 0⟩
  readObjcDataVirt := fun a =>
    if a = 16384 then ⟨0, 0, 0, 0, 0, 20480, 24576⟩ else ⟨0, 0, 0, 0, 0, 0, 0⟩
  readMethlist := fun a => if a = 1536 then ⟨0, 2⟩ else ⟨0, 0⟩
  methlistSizeof := 8
  readMethodEnt := fun a =>
    if a = 1544 then ⟨8192, 0, 28673⟩
    else if a = 1568 then ⟨9999, 0, 2⟩ else ⟨0, 0, 0⟩
  methodEntSizeof := 24
  symtab := ⟨2048⟩
  symtab_contents := [⟨4, 256⟩]
  dysymtab := ⟨0, 1⟩
  load_dylib_commands := [⟨16, 24⟩]

/-! ### Basic lemmas about the embedded definitions -/

theorem maskLowTwoBits_mod_four (x : Nat) : maskLowTwoBits x % 4 = 0 := by
  unfold maskLowTwoBits; omega

theorem maskLowTwoBits_eq_div_mul (x : Nat) : maskLowTwoBits x = x / 4 * 4 := by
  unfold maskLowTwoBits; omega

/-- The selref built by `_parse_selrefs` for entry index `i`. -/
def selrefAt (b : MachoBinary) (sect : SectionInfo) (i : Nat) : ObjcSelref :=
  ObjcSelref.mk (sect.address + i * b.wordSize)
    (b.readWord (sect.address + i * b.wordSize))
    (b.readCStringVirt (b.readWord (sect.address + i * b.wordSize)))

theorem parse_selrefs_eq_map (b : MachoBinary) (sect : SectionInfo)
    (hs : b.objc_selrefs = some sect) :
    parse_selrefs b
      = (List.range (sect.size / b.wordSize)).map (selrefAt b sect) := by
  unfold parse_selrefs
  rw [hs]
  rfl

theorem parse_selrefs_length (b : MachoBinary) (sect : SectionInfo)
    (hs : b.objc_selrefs = some sect) :
    (parse_selrefs b).length = sect.size / b.wordSize := by
  rw [parse_selrefs_eq_map b sect hs]
  simp

theorem parse_selrefs_getElem (b : MachoBinary) (sect : SectionInfo)
    (hs : b.objc_selrefs = some sect) (i : Nat)
    (hi : i < (parse_selrefs b).length) :
    (parse_selrefs b).get ⟨i, hi⟩ = selrefAt b sect i := by
  have h := parse_selrefs_eq_map b sect hs
  have hi2 : i < sect.size / b.wordSize := by
    rw [← parse_selrefs_length b sect hs]; exact hi
  simp only [List.get_eq_getElem]
  rw [List.getElem_of_eq h]
  simp

theorem parse_selrefs_mem (b : MachoBinary) (r : ObjcSelref)
    (hr : r ∈ parse_selrefs b) :
    ∃ sect, b.objc_selrefs = some sect
      ∧ ∃ i, i < sect.size / b.wordSize ∧ r = selrefAt b sect i := by
  cases hsect : b.objc_selrefs with
  | none =>
    exfalso
    unfold parse_selrefs at hr
    rw [hsect] at hr
    simp at hr
  | some sect =>
    refine ⟨sect, rfl, ?_⟩
    rw [parse_selrefs_eq_map b sect hsect] at hr
    obtain ⟨i, hi, hri⟩ := List.mem_map.mp hr
    exact ⟨i, List.mem_range.mp hi, hri.symm⟩

theorem parse_selrefs_literal (b : MachoBinary) (r : ObjcSelref)
    (hr : r ∈ parse_selrefs b) :
    r.selector_literal = b.readCStringVirt r.destination_address := by
  obtain ⟨sect, _, i, _, hri⟩ := parse_selrefs_mem b r hr
  rw [hri]
  rfl

theorem selrefAt_source_inj (b : MachoBinary) (sect : SectionInfo)
    (hw : 0 < b.wordSize) (i j : Nat)
    (h : (selrefAt b sect i).source_address = (selrefAt b sect j).source_address) :
    i = j := by
  unfold selrefAt at h
  simp only at h
  have : i * b.wordSize = j * b.wordSize := by omega
  exact Nat.eq_of_mul_eq_mul_right hw this

theorem parse_selrefs_source_inj (b : MachoBinary) (hw : 0 < b.wordSize)
    (r s : ObjcSelref) (hr : r ∈ parse_selrefs b) (hs : s ∈ parse_selrefs b)
    (h : r.source_address = s.source_address) : r = s := by
  obtain ⟨sect, hsect, i, _, hri⟩ := parse_selrefs_mem b r hr
  obtain ⟨sect2, hsect2, j, _, hsj⟩ := parse_selrefs_mem b s hs
  rw [hsect] at hsect2
  injection hsect2 with hss
  subst hss
  rw [hri, hsj] at h ⊢
  rw [selrefAt_source_inj b sect hw i j h]

theorem parse_selrefs_sorted (b : MachoBinary) (hw : 0 < b.wordSize) :
    List.Pairwise (· < ·) ((parse_selrefs b).map ObjcSelref.source_address) := by
  cases hsect : b.objc_selrefs with
  | none =>
    unfold parse_selrefs
    rw [hsect]
    simp
  | some sect =>
    rw [parse_selrefs_eq_map b sect hsect, List.map_map]
    have := List.pairwise_lt_range (sect.size / b.wordSize)
    refine List.Pairwise.map _ ?_ this
    intro i j hij
    show sect.address + i * b.wordSize < sect.address + j * b.wordSize
    have : i * b.wordSize < j * b.wordSize := (Nat.mul_lt_mul_right hw).mpr hij
    omega

theorem selref_lookup_foldl (p : Nat) (l : List ObjcSelref)
    (acc : Option ObjcSelref) :
    (l.foldl (fun acc r =>
        if r.destination_address = p then some r else acc) acc = acc
      ∧ ∀ r ∈ l, r.destination_address ≠ p)
    ∨ (∃ r ∈ l, r.destination_address = p
      ∧ l.foldl (fun acc r =>
          if r.destination_address = p then some r else acc) acc = some r) := by
  induction l generalizing acc with
  | nil => left; exact ⟨rfl, by simp⟩
  | cons x xs ih =>
    by_cases hx : x.destination_address = p
    · right
      rcases ih (some x) with ⟨heq, hall⟩ | ⟨r, hr, hrp, heq⟩
      · exact ⟨x, List.mem_cons_self x xs, hx, by simp [hx, heq]⟩
      · exact ⟨r, List.mem_cons_of_mem x hr, hrp, by simp [hx, heq]⟩
    · rcases ih acc with ⟨heq, hall⟩ | ⟨r, hr, hrp, heq⟩
      · left
        constructor
        · simp [hx, heq]
        · intro r hr
          rcases List.mem_cons.mp hr with h | h
          · rw [h]; exact hx
          · exact hall r h
      · right
        exact ⟨r, List.mem_cons_of_mem x hr, hrp, by simp [hx, heq]⟩

theorem get_selref_for_objc_method_eq_some (selrefs : List ObjcSelref)
    (p : Nat) (r : ObjcSelref)
    (h : get_selref_for_objc_method selrefs p = some r) :
    r ∈ selrefs ∧ r.destination_address = p := by
  rcases selref_lookup_foldl p selrefs none with ⟨heq, _⟩ | ⟨q, hq, hqp, heq⟩
  · rw [get_selref_for_objc_method] at h
    rw [heq] at h
    exact absurd h (by simp)
  · rw [get_selref_for_objc_method] at h
    rw [heq] at h
    injection h with h
    subst h
    exact ⟨hq, hqp⟩

theorem get_selref_for_objc_method_eq_none (selrefs : List ObjcSelref)
    (p : Nat) (hall : ∀ r ∈ selrefs, r.destination_address ≠ p) :
    get_selref_for_objc_method selrefs p = none := by
  rcases selref_lookup_foldl p selrefs none with ⟨heq, _⟩ | ⟨q, hq, hqp, _⟩
  · rw [get_selref_for_objc_method, heq]
  · exact absurd hqp (hall q hq)

theorem get_selref_for_objc_method_isSome (selrefs : List ObjcSelref)
    (p : Nat) (r : ObjcSelref) (hr : r ∈ selrefs)
    (hp : r.destination_address = p) :
    ∃ q, get_selref_for_objc_method selrefs p = some q := by
  rcases selref_lookup_foldl p selrefs none with ⟨_, hall⟩ | ⟨q, _, _, heq⟩
  · exact absurd hp (hall r hr)
  · exact ⟨q, by rw [get_selref_for_objc_method, heq]⟩

/-- The selector built by the method-list walk for the entry at file
offset `off`. -/
def selectorAt (b : MachoBinary) (selrefs : List ObjcSelref) (off : Nat) :
    ObjcSelector :=
  mkObjcSelector (b.readCStringVirt (b.readMethodEnt off).name)
    (get_selref_for_objc_method selrefs (b.readMethodEnt off).name)
    (some (maskLowTwoBits (b.readMethodEnt off).implementation))

theorem methlistWalk_length (b : MachoBinary) (selrefs : List ObjcSelref)
    (n off : Nat) : (methlistWalk b selrefs n off).length = n := by
  induction n generalizing off with
  | zero => rfl
  | succ k ih =>
    show (_ :: methlistWalk b selrefs k (off + b.methodEntSizeof)).length = k + 1
    rw [List.length_cons, ih]

theorem methlistWalk_get (b : MachoBinary) (selrefs : List ObjcSelref)
    (n off i : Nat) (hi : i < (methlistWalk b selrefs n off).length) :
    (methlistWalk b selrefs n off).get ⟨i, hi⟩
      = selectorAt b selrefs (off + i * b.methodEntSizeof) := by
  induction n generalizing off i with
  | zero => exact absurd hi (by simp [methlistWalk])
  | succ k ih =>
    cases i with
    | zero => simp [methlistWalk, selectorAt]
    | succ j =>
      have hj : j < (methlistWalk b selrefs k (off + b.methodEntSizeof)).length := by
        rw [methlistWalk_length]
        rw [methlistWalk_length] at hi
        omega
      show (methlistWalk b selrefs k (off + b.methodEntSizeof)).get ⟨j, hj⟩ = _
      rw [ih (off + b.methodEntSizeof) j hj]
      have : off + b.methodEntSizeof + j * b.methodEntSizeof
          = off + (j + 1) * b.methodEntSizeof := by ring
      rw [this]

theorem methlistWalk_mem (b : MachoBinary) (selrefs : List ObjcSelref)
    (n off : Nat) (s : ObjcSelector) (hs : s ∈ methlistWalk b selrefs n off) :
    ∃ i, i < n ∧ s = selectorAt b selrefs (off + i * b.methodEntSizeof) := by
  obtain ⟨⟨i, hi⟩, hgi⟩ := List.mem_iff_get.mp hs
  refine ⟨i, ?_, ?_⟩
  · rw [methlistWalk_length] at hi; exact hi
  · rw [← hgi, methlistWalk_get]

/-- The `__objc_data` struct reached from a classlist pointer, after the
flag bits of the class struct's `data` field are masked. -/
def dataStructAt (b : MachoBinary) (ptr : Nat) : ObjcDataRawStruct :=
  b.readObjcDataVirt (get_objc_class_from_classlist_pointer b ptr).data

theorem parse_static_mem (b : MachoBinary) (selrefs : List ObjcSelref)
    (c : ObjcClass) (hc : c ∈ parse_static_objc_runtime_info b selrefs) :
    ∃ ptr ∈ get_classlist_pointers b,
      ¬ (dataStructAt b ptr).name < b.virtualBase
      ∧ c = parse_objc_data_entry b selrefs (dataStructAt b ptr) := by
  obtain ⟨ptr, hptr, hfm⟩ := List.mem_filterMap.mp hc
  refine ⟨ptr, hptr, ?_⟩
  unfold get_objc_data_from_objc_class at hfm
  by_cases hlt : (dataStructAt b ptr).name < b.virtualBase
  · exfalso
    unfold dataStructAt at hlt
    simp only [hlt, if_pos] at hfm
    simp at hfm
  · constructor
    · exact hlt
    · unfold dataStructAt at hlt ⊢
      simp only [hlt, if_neg, not_false_iff] at hfm
      injection hfm with h
      exact h.symm

theorem parse_static_selectors (b : MachoBinary) (selrefs : List ObjcSelref)
    (c : ObjcClass) (hc : c ∈ parse_static_objc_runtime_info b selrefs)
    (s : ObjcSelector) (hs : s ∈ c.selectors) :
    ∃ off, s = selectorAt b selrefs off := by
  obtain ⟨ptr, _, _, hcd⟩ := parse_static_mem b selrefs c hc
  rw [hcd] at hs
  unfold parse_objc_data_entry at hs
  simp only at hs
  unfold get_selectors at hs
  cases hml : get_methlist b (dataStructAt b ptr) with
  | none => rw [hml] at hs; exact absurd hs (by simp)
  | some pair =>
    rw [hml] at hs
    unfold get_selectors_from_methlist at hs
    obtain ⟨i, _, hsi⟩ := methlistWalk_mem b selrefs pair.1.methcount
      (pair.2 + b.methlistSizeof) s hs
    exact ⟨pair.2 + b.methlistSizeof + i * b.methodEntSizeof, hsi⟩

theorem selrefSourceMatches_true (a : Option Nat) (s : ObjcSelector)
    (h : selrefSourceMatches a s = true) :
    ∃ r, s.selref = some r ∧ some r.source_address = a := by
  unfold selrefSourceMatches at h
  cases hx : s.selref with
  | none => rw [hx] at h; exact absurd h (by simp)
  | some r =>
    rw [hx] at h
    exact ⟨r, rfl, by simpa using h⟩

theorem selrefSourceMatches_of (a : Option Nat) (s : ObjcSelector)
    (r : ObjcSelref) (hr : s.selref = some r)
    (ha : some r.source_address = a) : selrefSourceMatches a s = true := by
  unfold selrefSourceMatches
  rw [hr]
  simpa using ha

theorem findSelectorInList_eq_some (a : Option Nat) (l : List ObjcSelector)
    (s : ObjcSelector) (h : findSelectorInList a l = some s) :
    s ∈ l ∧ ∃ r, s.selref = some r ∧ some r.source_address = a :=
  ⟨List.mem_of_find?_eq_some h,
    selrefSourceMatches_true a s (List.find?_some h)⟩

theorem findSelectorInList_ne_none (a : Option Nat) (l : List ObjcSelector)
    (s : ObjcSelector) (r : ObjcSelref) (hs : s ∈ l) (hr : s.selref = some r)
    (ha : some r.source_address = a) : findSelectorInList a l ≠ none := by
  intro hnone
  have := List.find?_eq_none.mp hnone s hs
  exact this (selrefSourceMatches_of a s r hr ha)

theorem findSelectorInClasses_eq_some (a : Option Nat) (cs : List ObjcClass)
    (s : ObjcSelector) (h : findSelectorInClasses a cs = some s) :
    ∃ c ∈ cs, s ∈ c.selectors
      ∧ ∃ r, s.selref = some r ∧ some r.source_address = a := by
  induction cs with
  | nil => exact absurd h (by simp [findSelectorInClasses])
  | cons c cs ih =>
    cases hc : findSelectorInList a c.selectors with
    | none =>
      rw [findSelectorInClasses, hc] at h
      obtain ⟨c2, hc2, hrest⟩ := ih h
      exact ⟨c2, List.mem_cons_of_mem c hc2, hrest⟩
    | some s2 =>
      rw [findSelectorInClasses, hc] at h
      injection h with h
      subst h
      obtain ⟨hm, hr⟩ := findSelectorInList_eq_some a c.selectors s2 hc
      exact ⟨c, List.mem_cons_self c cs, hm, hr⟩

theorem findSelectorInClasses_ne_none (a : Option Nat) (cs : List ObjcClass)
    (c : ObjcClass) (s : ObjcSelector) (r : ObjcSelref) (hc : c ∈ cs)
    (hs : s ∈ c.selectors) (hr : s.selref = some r)
    (ha : some r.source_address = a) : findSelectorInClasses a cs ≠ none := by
  induction cs with
  | nil => exact absurd hc (by simp)
  | cons x xs ih =>
    rcases List.mem_cons.mp hc with h | h
    · subst h
      cases hx : findSelectorInList a c.selectors with
      | none => exact absurd hx (findSelectorInList_ne_none a c.selectors s r hs hr ha)
      | some s2 => rw [findSelectorInClasses, hx]; simp
    · cases hx : findSelectorInList a x.selectors with
      | none => rw [findSelectorInClasses, hx]; exact ih h
      | some s2 => rw [findSelectorInClasses, hx]; simp

theorem dictGet_dictSet (d : List (String × String)) (k v key : String) :
    dictGet (dictSet d k v) key
      = if k = key then some v else dictGet d key := by
  unfold dictGet dictSet
  rw [List.foldl_append]
  rfl

theorem loop_dictGet_untouched (b : MachoBinary) (n : Nat) :
    ∀ (idx : Nat) (acc d : List (String × String)) (s : String),
      parseLinkedDylibSymbolsLoop b n idx acc = some d →
      (∀ i, i < n → undefSymNameAt b (idx + i) ≠ some s) →
      dictGet d s = dictGet acc s := by
  induction n with
  | zero =>
    intro idx acc d s h _
    injection h with h
    rw [h]
  | succ k ih =>
    intro idx acc d s h hnone
    cases hsym : b.symtab_contents.get? (b.dysymtab.iundefsym + idx) with
    | none =>
      rw [parseLinkedDylibSymbolsLoop, hsym] at h
      exact absurd h (by simp)
    | some sym =>
      rw [parseLinkedDylibSymbolsLoop, hsym] at h
      simp only [Option.some_bind] at h
      cases hdl : dylib_from_library_ordinal b
          (library_ordinal_from_n_desc sym.n_desc) with
      | none => rw [hdl] at h; exact absurd h (by simp)
      | some dl =>
        rw [hdl] at h
        simp only [Option.some_bind] at h
        have hstep := ih (idx + 1)
          (dictSet acc (b.readCStringFile (b.symtab.stroff + sym.n_strx))
            (b.readCStringVirt (dl.fileoff + dl.name_offset + b.virtualBase)))
          d s h (by
            intro i hi
            have := hnone (i + 1) (by omega)
            have harith : idx + (i + 1) = idx + 1 + i := by omega
            rw [harith] at this
            exact this)
        rw [hstep, dictGet_dictSet]
        have h0 := hnone 0 (by omega)
        rw [Nat.add_zero] at h0
        unfold undefSymNameAt at h0
        rw [hsym] at h0
        simp at h0
        rw [if_neg h0]

theorem loop_dictGet_last (b : MachoBinary) (n : Nat) :
    ∀ (idx : Nat) (acc d : List (String × String)) (j : Nat) (s : String),
      parseLinkedDylibSymbolsLoop b n idx acc = some d →
      j < n →
      undefSymNameAt b (idx + j) = some s →
      (∀ k2, j < k2 → k2 < n → undefSymNameAt b (idx + k2) ≠ some s) →
      dictGet d s = undefSymPathAt b (idx + j) := by
  induction n with
  | zero => intro idx acc d j s _ hj; omega
  | succ k ih =>
    intro idx acc d j s h hj hname hlater
    cases hsym : b.symtab_contents.get? (b.dysymtab.iundefsym + idx) with
    | none =>
      rw [parseLinkedDylibSymbolsLoop, hsym] at h
      exact absurd h (by simp)
    | some sym =>
      rw [parseLinkedDylibSymbolsLoop, hsym] at h
      simp only [Option.some_bind] at h
      cases hdl : dylib_from_library_ordinal b
          (library_ordinal_from_n_desc sym.n_desc) with
      | none => rw [hdl] at h; exact absurd h (by simp)
      | some dl =>
        rw [hdl] at h
        simp only [Option.some_bind] at h
        cases j with
        | zero =>
          rw [Nat.add_zero] at hname ⊢
          have hs : b.readCStringFile (b.symtab.stroff + sym.n_strx) = s := by
            unfold undefSymNameAt at hname
            rw [hsym] at hname
            simpa using hname
          have huntouched := loop_dictGet_untouched b k (idx + 1)
            (dictSet acc (b.readCStringFile (b.symtab.stroff + sym.n_strx))
              (b.readCStringVirt (dl.fileoff + dl.name_offset + b.virtualBase)))
            d s h (by
              intro i hi
              have := hlater (i + 1) (by omega) (by omega)
              have harith : idx + (i + 1) = idx + 1 + i := by omega
              rw [harith] at this
              exact this)
          rw [huntouched, dictGet_dictSet, if_pos hs]
          unfold undefSymPathAt
          rw [hsym]
          simp [hdl]
        | succ j2 =>
          have harith : idx + (j2 + 1) = idx + 1 + j2 := by omega
          rw [harith] at hname ⊢
          exact ih (idx + 1)
            (dictSet acc (b.readCStringFile (b.symtab.stroff + sym.n_strx))
              (b.readCStringVirt (dl.fileoff + dl.name_offset + b.virtualBase)))
            d j2 s h (by omega) hname (by
              intro k2 hk2a hk2b
              have := hlater (k2 + 1) (by omega) (by omega)
              have harith2 : idx + (k2 + 1) = idx + 1 + k2 := by omega
              rw [harith2] at this
              exact this)

theorem mkObjcSelector_selref (n : String) (r : Option ObjcSelref)
    (i : Option Nat) : (mkObjcSelector n r i).selref = r := rfl

theorem mkObjcSelector_name (n : String) (r : Option ObjcSelref)
    (i : Option Nat) : (mkObjcSelector n r i).name = n := rfl

theorem selectorAt_selref (b : MachoBinary) (selrefs : List ObjcSelref)
    (off : Nat) :
    (selectorAt b selrefs off).selref
      = get_selref_for_objc_method selrefs (b.readMethodEnt off).name := rfl

theorem selectorAt_implementation (b : MachoBinary) (selrefs : List ObjcSelref)
    (off : Nat) :
    (selectorAt b selrefs off).implementation
      = some (maskLowTwoBits (b.readMethodEnt off).implementation) := rfl

/-- A binary that lacks both the `__objc_selrefs` and `__objc_classlist`
sections. -/
def b1 : MachoBinary where
  wordSize := 8
  objc_selrefs := none
  objc_classlist := none
  readWord := fun _ => 0
  readCStringVirt := fun _ => ""
  readCStringFile := fun _ => ""
  virtualBase := 0
  fileOffsetForVA := fun _ => 0
  readObjcClassVirt := fun _ => ⟨0, 0, 0, 0, 0⟩
  readObjcDataVirt := fun _ => ⟨0, 0, 0, 0, 0, 0, 0⟩
  readMethlist := fun _ => ⟨0, 0⟩
  methlistSizeof := 8
  readMethodEnt := fun _ => ⟨0, 0, 0⟩
  methodEntSizeof := 24
  symtab := ⟨0⟩
  symtab_contents := []
  dysymtab := ⟨0, 0⟩
  load_dylib_commands := []

/-! ### Claim theorems -/

/-- C3: the selrefs pass walks `__objc_selrefs` as an array of word-sized
pointers: the number of parsed selrefs is the section size divided by the
word size; the `i`-th selref has source address `section.address + i * word`,
destination the pointer value read there, and literal the C string at the
destination; the list is sorted ascending by source address; a missing
section yields the empty list. -/
theorem claim_C3_selrefs_pass (b : MachoBinary) (hw : 0 < b.wordSize) :
    (∀ sect, b.objc_selrefs = some sect →
      (parse_selrefs b).length = sect.size / b.wordSize
      ∧ ∀ i (hi : i < (parse_selrefs b).length),
          (parse_selrefs b).get ⟨i, hi⟩
            = ObjcSelref.mk (sect.address + i * b.wordSize)
                (b.readWord (sect.address + i * b.wordSize))
                (b.readCStringVirt (b.readWord (sect.address + i * b.wordSize))))
    ∧ List.Pairwise (· < ·) ((parse_selrefs b).map ObjcSelref.source_address)
    ∧ (b.objc_selrefs = none → parse_selrefs b = []) := by
  refine ⟨?_, parse_selrefs_sorted b hw, ?_⟩
  · intro sect hsect
    refine ⟨parse_selrefs_length b sect hsect, ?_⟩
    intro i hi
    rw [parse_selrefs_getElem b sect hsect i hi]
    rfl
  · intro hnone
    unfold parse_selrefs
    rw [hnone]

theorem claim_C3_witness :
    (parse_selrefs b0).length = 2
    ∧ List.Pairwise (· < ·) ((parse_selrefs b0).map ObjcSelref.source_address) := by
  have h := claim_C3_selrefs_pass b0 (by decide)
  exact ⟨(h.1 ⟨4096, 16⟩ rfl).1, h.2.1⟩

/-- C4: every selector parsed from a class's method list stores as its
implementation the raw `imp` field of its method entry with the low two
bits cleared, so every stored implementation is divisible by 4. -/
theorem claim_C4_imp_masking (b : MachoBinary) :
    ∀ c ∈ parser_classes b, ∀ s ∈ c.selectors,
      (∃ off, s.implementation
          = some (maskLowTwoBits (b.readMethodEnt off).implementation))
      ∧ ∀ v, s.implementation = some v → v % 4 = 0 := by
  intro c hc s hs
  have hc2 : c ∈ parse_static_objc_runtime_info b (parse_selrefs b) := hc
  obtain ⟨off, hoff⟩ := parse_static_selectors b (parse_selrefs b) c hc2 s hs
  constructor
  · exact ⟨off, by rw [hoff]; rfl⟩
  · intro v hv
    rw [hoff, selectorAt_implementation] at hv
    injection hv with hv
    rw [← hv]
    exact maskLowTwoBits_mod_four _

theorem claim_C4_witness :
    (∃ off,
      (ObjcSelector.mk "localSel" (some (ObjcSelref.mk 4096 8192 "localSel"))
          (some 28672) false).implementation
        = some (maskLowTwoBits (b0.readMethodEnt off).implementation))
    ∧ ∀ v,
        (ObjcSelector.mk "localSel" (some (ObjcSelref.mk 4096 8192 "localSel"))
            (some 28672) false).implementation = some v → v % 4 = 0 :=
  claim_C4_imp_masking b0
    (ObjcClass.mk "MyClass"
      [ObjcSelector.mk "localSel" (some (ObjcSelref.mk 4096 8192 "localSel"))
          (some 28672) false,
        ObjcSelector.mk "" none (some 0) true])
    (by decide)
    (ObjcSelector.mk "localSel" (some (ObjcSelref.mk 4096 8192 "localSel"))
      (some 28672) false)
    (by decide)

/-- C6: the classlist pass skips exactly those classes whose `__objc_data`
structure has a name pointer below the image virtual base, and parses all
the others, never failing: the parsed class list equals the good classlist
pointers, in order, mapped through the data-entry parser. -/
theorem claim_C6_bad_data_skipped (b : MachoBinary) (selrefs : List ObjcSelref) :
    parse_static_objc_runtime_info b selrefs
      = ((get_classlist_pointers b).filter fun ptr =>
          b.virtualBase ≤ (dataStructAt b ptr).name).map
        fun ptr => parse_objc_data_entry b selrefs (dataStructAt b ptr) := by
  unfold parse_static_objc_runtime_info
  induction get_classlist_pointers b with
  | nil => rfl
  | cons x xs ih =>
    rw [List.filterMap_cons, List.filter_cons]
    have hdata : get_objc_data_from_objc_class b
        (get_objc_class_from_classlist_pointer b x)
        = if (dataStructAt b x).name < b.virtualBase then none
          else some (dataStructAt b x) := rfl
    by_cases hx : (dataStructAt b x).name < b.virtualBase
    · have hle : ¬ b.virtualBase ≤ (dataStructAt b x).name := by omega
      simp [hdata, hx, hle, ih]
    · have hle : b.virtualBase ≤ (dataStructAt b x).name := by omega
      simp [hdata, hx, hle, ih]

/-- C10: a binary missing the `__objc_classlist` section yields an empty
class list, a missing `__objc_selrefs` section yields an empty selref
list, construction succeeds, and on a binary missing both sections the
query operations return absent/empty results. -/
theorem claim_C10_missing_sections (b : MachoBinary) :
    (b.objc_classlist = none → parser_classes b = [])
    ∧ (b.objc_selrefs = none → parse_selrefs b = [])
    ∧ (b.objc_classlist = none → b.objc_selrefs = none →
        (∀ a, parser_selector_for_selref b a = none)
        ∧ ∀ sel, get_method_imp_addresses (parser_classes b) sel = []) := by
  have hclasslist : b.objc_classlist = none → parser_classes b = [] := by
    intro h
    unfold parser_classes parse_static_objc_runtime_info get_classlist_pointers
    rw [h]
    rfl
  have hselrefs : b.objc_selrefs = none → parse_selrefs b = [] := by
    intro h
    unfold parse_selrefs
    rw [h]
  refine ⟨hclasslist, hselrefs, ?_⟩
  intro h1 h2
  constructor
  · intro a
    show selector_for_selref (parser_classes b) (parse_selrefs b) a = none
    rw [hclasslist h1, hselrefs h2]
    rfl
  · intro sel
    rw [hclasslist h1]
    rfl

theorem claim_C10_witness :
    parser_classes b1 = []
    ∧ parse_selrefs b1 = []
    ∧ parser_selector_for_selref b1 (some 42) = none
    ∧ get_method_imp_addresses (parser_classes b1) "foo" = [] := by
  have h := claim_C10_missing_sections b1
  exact ⟨h.1 rfl, h.2.1 rfl, (h.2.2 rfl rfl).1 (some 42), (h.2.2 rfl rfl).2 "foo"⟩

theorem selector_for_selref_found (classes : List ObjcClass)
    (selrefs : List ObjcSelref) (a : Option Nat) (sel : ObjcSelector)
    (h : findSelectorInClasses a classes = some sel) :
    selector_for_selref classes selrefs a = some sel := by
  simp [selector_for_selref, h]

theorem selector_for_selref_fallback (classes : List ObjcClass)
    (selrefs : List ObjcSelref) (a : Option Nat) (r : ObjcSelref)
    (h1 : findSelectorInClasses a classes = none)
    (h2 : (selrefs.filter fun x => some x.source_address = a).head? = some r) :
    selector_for_selref classes selrefs a
      = some (mkObjcSelector r.selector_literal (some r) none) := by
  simp [selector_for_selref, h1, h2]

theorem selector_for_selref_absent (classes : List ObjcClass)
    (selrefs : List ObjcSelref) (a : Option Nat)
    (h1 : findSelectorInClasses a classes = none)
    (h2 : (selrefs.filter fun x => some x.source_address = a).head? = none) :
    selector_for_selref classes selrefs a = none := by
  simp [selector_for_selref, h1, h2]

/-- A selector found in a parsed class that carries a selref: the selref
comes from the parsed selref list and the selector's name is the C string
at the selref's destination. -/
theorem parser_selector_attached (b : MachoBinary) (sel : ObjcSelector)
    (c : ObjcClass) (hc : c ∈ parser_classes b) (hmem : sel ∈ c.selectors)
    (r : ObjcSelref) (hr : sel.selref = some r) :
    r ∈ parse_selrefs b
      ∧ sel.name = b.readCStringVirt r.destination_address := by
  have hc2 : c ∈ parse_static_objc_runtime_info b (parse_selrefs b) := hc
  obtain ⟨off, hoff⟩ := parse_static_selectors b (parse_selrefs b) c hc2 sel hmem
  rw [hoff, selectorAt_selref] at hr
  obtain ⟨hmem2, hdest⟩ :=
    get_selref_for_objc_method_eq_some (parse_selrefs b)
      (b.readMethodEnt off).name r hr
  refine ⟨hmem2, ?_⟩
  rw [hoff]
  show b.readCStringVirt (b.readMethodEnt off).name = _
  rw [hdest]

/-- C1: `selector_for_selref` obeys the three-way case split: an address
carried by a selref attached to a selector of a locally parsed class
returns that local selector; an address of a parsed selref attached to no
class selector returns a synthetic external selector bearing the selref's
literal, that selref, and no implementation; any other address (including
`None`) returns absent. -/
theorem claim_C1_selector_for_selref_cases (b : MachoBinary)
    (addr : Option Nat) :
    ((∃ c ∈ parser_classes b, ∃ s ∈ c.selectors,
        selrefSourceMatches addr s = true) →
      ∃ sel, parser_selector_for_selref b addr = some sel
        ∧ (∃ c ∈ parser_classes b, sel ∈ c.selectors)
        ∧ ∃ r, sel.selref = some r ∧ some r.source_address = addr)
    ∧ ((∀ c ∈ parser_classes b, ∀ s ∈ c.selectors,
          selrefSourceMatches addr s = false) →
        (∃ S ∈ parse_selrefs b, some S.source_address = addr) →
        ∃ S, S ∈ parse_selrefs b ∧ some S.source_address = addr
          ∧ parser_selector_for_selref b addr
            = some (mkObjcSelector S.selector_literal (some S) none))
    ∧ ((∀ S ∈ parse_selrefs b, some S.source_address ≠ addr) →
        parser_selector_for_selref b addr = none) := by
  refine ⟨?_, ?_, ?_⟩
  · rintro ⟨c, hc, s, hs, hmatch⟩
    obtain ⟨r, hr, ha⟩ := selrefSourceMatches_true addr s hmatch
    cases hfc : findSelectorInClasses addr (parser_classes b) with
    | none =>
      exact absurd hfc
        (findSelectorInClasses_ne_none addr (parser_classes b) c s r hc hs hr ha)
    | some sel =>
      obtain ⟨c2, hc2, hmem2, hrest⟩ :=
        findSelectorInClasses_eq_some addr (parser_classes b) sel hfc
      exact ⟨sel,
        selector_for_selref_found (parser_classes b) (parse_selrefs b) addr sel hfc,
        ⟨c2, hc2, hmem2⟩, hrest⟩
  · rintro h1 ⟨S, hS, hSa⟩
    have hfc : findSelectorInClasses addr (parser_classes b) = none := by
      cases hfc2 : findSelectorInClasses addr (parser_classes b) with
      | none => rfl
      | some sel =>
        obtain ⟨c, hc, hmem, r, hr, ha⟩ :=
          findSelectorInClasses_eq_some addr (parser_classes b) sel hfc2
        have := h1 c hc sel hmem
        rw [selrefSourceMatches_of addr sel r hr ha] at this
        exact absurd this (by simp)
    have hSf : S ∈ (parse_selrefs b).filter fun x => some x.source_address = addr := by
      rw [List.mem_filter]
      exact ⟨hS, by simpa using hSa⟩
    cases hfl : (parse_selrefs b).filter fun x => some x.source_address = addr with
    | nil => rw [hfl] at hSf; exact absurd hSf (by simp)
    | cons r0 rest =>
      have hr0f : r0 ∈ (parse_selrefs b).filter
          fun x => some x.source_address = addr := by
        rw [hfl]; exact List.mem_cons_self r0 rest
      rw [List.mem_filter] at hr0f
      refine ⟨r0, hr0f.1, by simpa using hr0f.2, ?_⟩
      exact selector_for_selref_fallback (parser_classes b) (parse_selrefs b)
        addr r0 hfc (by rw [hfl]; rfl)
  · intro h
    have hfc : findSelectorInClasses addr (parser_classes b) = none := by
      cases hfc2 : findSelectorInClasses addr (parser_classes b) with
      | none => rfl
      | some sel =>
        obtain ⟨c, hc, hmem, r, hr, ha⟩ :=
          findSelectorInClasses_eq_some addr (parser_classes b) sel hfc2
        obtain ⟨hrmem, _⟩ := parser_selector_attached b sel c hc hmem r hr
        exact absurd ha (h r hrmem)
    have hfl : ((parse_selrefs b).filter
        fun x => some x.source_address = addr) = [] := by
      rw [List.filter_eq_nil_iff]
      intro S hS
      simpa using h S hS
    exact selector_for_selref_absent (parser_classes b) (parse_selrefs b)
      addr hfc (by rw [hfl]; rfl)

theorem claim_C1_witness :
    (∃ sel, parser_selector_for_selref b0 (some 4096) = some sel
      ∧ (∃ c ∈ parser_classes b0, sel ∈ c.selectors)
      ∧ ∃ r, sel.selref = some r ∧ some r.source_address = some 4096)
    ∧ (∃ S, S ∈ parse_selrefs b0 ∧ some S.source_address = some 4104
        ∧ parser_selector_for_selref b0 (some 4104)
          = some (mkObjcSelector S.selector_literal (some S) none))
    ∧ parser_selector_for_selref b0 (some 9999) = none
    ∧ parser_selector_for_selref b0 none = none := by
  refine ⟨?_, ?_, ?_, ?_⟩
  · exact (claim_C1_selector_for_selref_cases b0 (some 4096)).1 (by decide)
  · exact (claim_C1_selector_for_selref_cases b0 (some 4104)).2.1
      (by decide) (by decide)
  · exact (claim_C1_selector_for_selref_cases b0 (some 9999)).2.2 (by decide)
  · exact (claim_C1_selector_for_selref_cases b0 none).2.2 (by decide)

/-- C2: for every selref produced by the selrefs pass,
`selector_for_selref` at its source address is not absent and the name of
the returned selector equals the selref's literal. -/
theorem claim_C2_selref_name_agreement (b : MachoBinary) (hw : 0 < b.wordSize)
    (S : ObjcSelref) (hS : S ∈ parse_selrefs b) :
    ∃ sel, parser_selector_for_selref b (some S.source_address) = some sel
      ∧ sel.name = S.selector_literal := by
  cases hfc : findSelectorInClasses (some S.source_address) (parser_classes b) with
  | some sel =>
    obtain ⟨c, hc, hmem, r, hr, ha⟩ :=
      findSelectorInClasses_eq_some (some S.source_address)
        (parser_classes b) sel hfc
    obtain ⟨hrmem, hname⟩ := parser_selector_attached b sel c hc hmem r hr
    injection ha with ha
    have hrS : r = S := parse_selrefs_source_inj b hw r S hrmem hS ha
    refine ⟨sel, selector_for_selref_found (parser_classes b)
      (parse_selrefs b) (some S.source_address) sel hfc, ?_⟩
    rw [hname, hrS, ← parse_selrefs_literal b S hS]
  | none =>
    have hSf : S ∈ (parse_selrefs b).filter
        fun x => some x.source_address = some S.source_address := by
      rw [List.mem_filter]
      exact ⟨hS, by simp⟩
    cases hfl : (parse_selrefs b).filter
        fun x => some x.source_address = some S.source_address with
    | nil => rw [hfl] at hSf; exact absurd hSf (by simp)
    | cons r0 rest =>
      have hr0f : r0 ∈ (parse_selrefs b).filter
          fun x => some x.source_address = some S.source_address := by
        rw [hfl]; exact List.mem_cons_self r0 rest
      rw [List.mem_filter] at hr0f
      have hr0S : r0 = S := by
        refine parse_selrefs_source_inj b hw r0 S hr0f.1 hS ?_
        have := hr0f.2
        simpa using this
      refine ⟨mkObjcSelector r0.selector_literal (some r0) none, ?_, ?_⟩
      · exact selector_for_selref_fallback (parser_classes b) (parse_selrefs b)
          (some S.source_address) r0 hfc (by rw [hfl]; rfl)
      · rw [mkObjcSelector_name, hr0S]

theorem claim_C2_witness :
    ∃ sel, parser_selector_for_selref b0 (some 4104) = some sel
      ∧ sel.name = "externalSel" :=
  claim_C2_selref_name_agreement b0 (by decide)
    (ObjcSelref.mk 4104 8200 "externalSel") (by decide)

/-- C5: a method entry whose name pointer equals the destination of some
parsed selref yields a selector carrying such a selref; a method entry
whose name pointer matches no parsed selref yields a selector with no
selref but with the masked implementation, still included in the class's
selector list. -/
theorem claim_C5_selref_attachment (b : MachoBinary) :
    ∀ c ∈ parser_classes b, ∀ s ∈ c.selectors,
      ∃ off, s = selectorAt b (parse_selrefs b) off
        ∧ ((∃ r ∈ parse_selrefs b,
              r.destination_address = (b.readMethodEnt off).name) →
            ∃ r, s.selref = some r ∧ r ∈ parse_selrefs b
              ∧ r.destination_address = (b.readMethodEnt off).name)
        ∧ ((∀ r ∈ parse_selrefs b,
              r.destination_address ≠ (b.readMethodEnt off).name) →
            s.selref = none
            ∧ s.implementation
              = some (maskLowTwoBits (b.readMethodEnt off).implementation)) := by
  intro c hc s hs
  have hc2 : c ∈ parse_static_objc_runtime_info b (parse_selrefs b) := hc
  obtain ⟨off, hoff⟩ := parse_static_selectors b (parse_selrefs b) c hc2 s hs
  refine ⟨off, hoff, ?_, ?_⟩
  · rintro ⟨r, hrmem, hrdest⟩
    obtain ⟨q, hq⟩ := get_selref_for_objc_method_isSome (parse_selrefs b)
      (b.readMethodEnt off).name r hrmem hrdest
    obtain ⟨hqmem, hqdest⟩ := get_selref_for_objc_method_eq_some
      (parse_selrefs b) (b.readMethodEnt off).name q hq
    refine ⟨q, ?_, hqmem, hqdest⟩
    rw [hoff, selectorAt_selref, hq]
  · intro hnone
    have hlk := get_selref_for_objc_method_eq_none (parse_selrefs b)
      (b.readMethodEnt off).name hnone
    constructor
    · rw [hoff, selectorAt_selref, hlk]
    · rw [hoff, selectorAt_implementation]

theorem claim_C5_witness :
    ∃ off, (ObjcSelector.mk "" none (some 0) true)
        = selectorAt b0 (parse_selrefs b0) off
      ∧ ((∃ r ∈ parse_selrefs b0,
            r.destination_address = (b0.readMethodEnt off).name) →
          ∃ r, (ObjcSelector.mk "" none (some 0) true).selref = some r
            ∧ r ∈ parse_selrefs b0
            ∧ r.destination_address = (b0.readMethodEnt off).name)
      ∧ ((∀ r ∈ parse_selrefs b0,
            r.destination_address ≠ (b0.readMethodEnt off).name) →
          (ObjcSelector.mk "" none (some 0) true).selref = none
          ∧ (ObjcSelector.mk "" none (some 0) true).implementation
            = some (maskLowTwoBits (b0.readMethodEnt off).implementation)) :=
  claim_C5_selref_attachment b0
    (ObjcClass.mk "MyClass"
      [ObjcSelector.mk "localSel" (some (ObjcSelref.mk 4096 8192 "localSel"))
          (some 28672) false,
        ObjcSelector.mk "" none (some 0) true])
    (by decide)
    (ObjcSelector.mk "" none (some 0) true)
    (by decide)

/-- C7 counterexample: in the parsed classes of the concrete binary `b0`
there is a selector (from a method entry whose raw `imp` field is `2`,
masked to `0`) whose `is_external_definition` flag is `true` even though
its implementation is present (it is `some 0`, not absent): the claimed
equivalence `is_external_definition ↔ implementation absent` fails. -/
theorem claim_C7_counterexample :
    ∃ c ∈ parser_classes b0, ∃ s ∈ c.selectors,
      s.is_external_definition = true ∧ ¬ s.implementation = none := by decide

theorem mk_is_external_iff (n : String) (r : Option ObjcSelref)
    (i : Option Nat) :
    (mkObjcSelector n r i).is_external_definition = true
      ↔ (i = none ∨ i = some 0) := by
  unfold mkObjcSelector pyFalsy
  cases i with
  | none => simp
  | some v => simp

/-- C7 amended: `is_external_definition` is true iff the implementation is
absent or equal to zero (Python falsiness of the optional), for every
selector produced by class parsing or by `selector_for_selref`. -/
theorem claim_C7_amended_external_iff (b : MachoBinary) :
    (∀ c ∈ parser_classes b, ∀ s ∈ c.selectors,
      (s.is_external_definition = true ↔
        (s.implementation = none ∨ s.implementation = some 0)))
    ∧ ∀ a sel, parser_selector_for_selref b a = some sel →
      (sel.is_external_definition = true ↔
        (sel.implementation = none ∨ sel.implementation = some 0)) := by
  have hpart1 : ∀ c ∈ parser_classes b, ∀ s ∈ c.selectors,
      (s.is_external_definition = true ↔
        (s.implementation = none ∨ s.implementation = some 0)) := by
    intro c hc s hs
    have hc2 : c ∈ parse_static_objc_runtime_info b (parse_selrefs b) := hc
    obtain ⟨off, hoff⟩ := parse_static_selectors b (parse_selrefs b) c hc2 s hs
    rw [hoff]
    unfold selectorAt
    exact mk_is_external_iff _ _ _
  refine ⟨hpart1, ?_⟩
  intro a sel h
  cases hfc : findSelectorInClasses a (parser_classes b) with
  | some sel2 =>
    have h2 := selector_for_selref_found (parser_classes b)
      (parse_selrefs b) a sel2 hfc
    have : parser_selector_for_selref b a = some sel2 := h2
    rw [h] at this
    injection this with this
    obtain ⟨c, hc, hmem, _⟩ :=
      findSelectorInClasses_eq_some a (parser_classes b) sel2 hfc
    rw [this]
    exact hpart1 c hc sel2 hmem
  | none =>
    cases hh : ((parse_selrefs b).filter
        fun x => some x.source_address = a).head? with
    | none =>
      have h2 := selector_for_selref_absent (parser_classes b)
        (parse_selrefs b) a hfc hh
      have : parser_selector_for_selref b a = none := h2
      rw [h] at this
      exact absurd this (by simp)
    | some r0 =>
      have h2 := selector_for_selref_fallback (parser_classes b)
        (parse_selrefs b) a r0 hfc hh
      have : parser_selector_for_selref b a
          = some (mkObjcSelector r0.selector_literal (some r0) none) := h2
      rw [h] at this
      injection this with this
      rw [this]
      exact mk_is_external_iff _ _ _

theorem claim_C7_amended_witness :
    (ObjcSelector.mk "" none (some 0) true).is_external_definition = true
      ↔ ((ObjcSelector.mk "" none (some 0) true).implementation = none
        ∨ (ObjcSelector.mk "" none (some 0) true).implementation = some 0) :=
  (claim_C7_amended_external_iff b0).1
    (ObjcClass.mk "MyClass"
      [ObjcSelector.mk "localSel" (some (ObjcSelref.mk 4096 8192 "localSel"))
          (some 28672) false,
        ObjcSelector.mk "" none (some 0) true])
    (by decide)
    (ObjcSelector.mk "" none (some 0) true)
    (by decide)

/-- C8: the selectors of a parsed class follow the source method list:
when the class's `base_methods` is zero the selector list is empty;
otherwise exactly `methcount` selectors are produced and the `i`-th
selector is built from the `i`-th method entry (duplicates included, one
selector per entry, in method-list order). -/
theorem claim_C8_method_list_order (b : MachoBinary) :
    ∀ c ∈ parser_classes b,
      ∃ data : ObjcDataRawStruct,
        c = parse_objc_data_entry b (parse_selrefs b) data
        ∧ (data.base_methods = 0 → c.selectors = [])
        ∧ (data.base_methods ≠ 0 →
            c.selectors.length
              = (b.readMethlist (b.fileOffsetForVA data.base_methods)).methcount
            ∧ ∀ i (hi : i < c.selectors.length),
                c.selectors.get ⟨i, hi⟩
                  = selectorAt b (parse_selrefs b)
                      (b.fileOffsetForVA data.base_methods + b.methlistSizeof
                        + i * b.methodEntSizeof)) := by
  intro c hc
  have hc2 : c ∈ parse_static_objc_runtime_info b (parse_selrefs b) := hc
  obtain ⟨ptr, _, _, hcd⟩ := parse_static_mem b (parse_selrefs b) c hc2
  refine ⟨dataStructAt b ptr, hcd, ?_, ?_⟩
  · intro h0
    rw [hcd]
    show get_selectors b (parse_selrefs b) (dataStructAt b ptr) = []
    unfold get_selectors get_methlist
    rw [if_pos h0]
  · intro hne
    have hsel : c.selectors
        = methlistWalk b (parse_selrefs b)
            (b.readMethlist
              (b.fileOffsetForVA (dataStructAt b ptr).base_methods)).methcount
            (b.fileOffsetForVA (dataStructAt b ptr).base_methods
              + b.methlistSizeof) := by
      rw [hcd]
      show get_selectors b (parse_selrefs b) (dataStructAt b ptr) = _
      unfold get_selectors get_methlist
      rw [if_neg hne]
      rfl
    constructor
    · rw [hsel, methlistWalk_length]
    · intro i hi
      simp only [List.get_eq_getElem]
      rw [List.getElem_of_eq hsel]
      have hi2 : i < (methlistWalk b (parse_selrefs b)
          (b.readMethlist
            (b.fileOffsetForVA (dataStructAt b ptr).base_methods)).methcount
          (b.fileOffsetForVA (dataStructAt b ptr).base_methods
            + b.methlistSizeof)).length := by
        rw [← hsel]; exact hi
      have := methlistWalk_get b (parse_selrefs b)
        (b.readMethlist
          (b.fileOffsetForVA (dataStructAt b ptr).base_methods)).methcount
        (b.fileOffsetForVA (dataStructAt b ptr).base_methods
          + b.methlistSizeof) i hi2
      simp only [List.get_eq_getElem] at this
      rw [this]

theorem claim_C8_witness :
    ∃ data : ObjcDataRawStruct,
      ObjcClass.mk "MyClass"
          [ObjcSelector.mk "localSel"
              (some (ObjcSelref.mk 4096 8192 "localSel")) (some 28672) false,
            ObjcSelector.mk "" none (some 0) true]
        = parse_objc_data_entry b0 (parse_selrefs b0) data
      ∧ (data.base_methods = 0 →
          (ObjcClass.mk "MyClass"
            [ObjcSelector.mk "localSel"
                (some (ObjcSelref.mk 4096 8192 "localSel")) (some 28672) false,
              ObjcSelector.mk "" none (some 0) true]).selectors = [])
      ∧ (data.base_methods ≠ 0 →
          (ObjcClass.mk "MyClass"
            [ObjcSelector.mk "localSel"
                (some (ObjcSelref.mk 4096 8192 "localSel")) (some 28672) false,
              ObjcSelector.mk "" none (some 0) true]).selectors.length
            = (b0.readMethlist
                (b0.fileOffsetForVA data.base_methods)).methcount
          ∧ ∀ i (hi : i < (ObjcClass.mk "MyClass"
              [ObjcSelector.mk "localSel"
                  (some (ObjcSelref.mk 4096 8192 "localSel")) (some 28672) false,
                ObjcSelector.mk "" none (some 0) true]).selectors.length),
              (ObjcClass.mk "MyClass"
                [ObjcSelector.mk "localSel"
                    (some (ObjcSelref.mk 4096 8192 "localSel")) (some 28672) false,
                  ObjcSelector.mk "" none (some 0) true]).selectors.get ⟨i, hi⟩
                = selectorAt b0 (parse_selrefs b0)
                    (b0.fileOffsetForVA data.base_methods + b0.methlistSizeof
                      + i * b0.methodEntSizeof)) :=
  claim_C8_method_list_order b0
    (ObjcClass.mk "MyClass"
      [ObjcSelector.mk "localSel" (some (ObjcSelref.mk 4096 8192 "localSel"))
          (some 28672) false,
        ObjcSelector.mk "" none (some 0) true])
    (by decide)

theorem pyListGet_of_pos (l : List α) (ord : Nat) (h : 1 ≤ ord) :
    pyListGet l ((ord : Int) - 1) = l.get? (ord - 1) := by
  unfold pyListGet
  rw [if_pos (by omega : (0 : Int) ≤ (ord : Int) - 1)]
  congr 1
  omega

theorem dylib_from_library_ordinal_of_pos (b : MachoBinary) (ord : Nat)
    (h : 1 ≤ ord) :
    dylib_from_library_ordinal b ord = b.load_dylib_commands.get? (ord - 1) := by
  unfold dylib_from_library_ordinal
  exact pyListGet_of_pos b.load_dylib_commands ord h

/-- C9: for every symbol in the undefined-symbol slice of the symbol
table, the library ordinal is `(n_desc >> 8) & 0xff`, the source dylib is
the list element at position `ordinal - 1` of the dylib load commands, and
the symbol's name is mapped to that dylib's install-name string,
retrievable via `path_for_external_symbol` (last assignment wins when
several undefined symbols share a name, hence the no-later-duplicate
hypothesis). -/
theorem claim_C9_library_ordinal (b : MachoBinary)
    (d : List (String × String))
    (hparse : parse_linked_dylib_symbols b = some d)
    (j : Nat) (hj : j < b.dysymtab.nundefsym)
    (sym : NlistStruct)
    (hsym : b.symtab_contents.get? (b.dysymtab.iundefsym + j) = some sym)
    (hord : 1 ≤ library_ordinal_from_n_desc sym.n_desc)
    (dylib : DylibCommandStruct)
    (hdylib : b.load_dylib_commands.get?
        (library_ordinal_from_n_desc sym.n_desc - 1) = some dylib)
    (huniq : ∀ k2, j < k2 → k2 < b.dysymtab.nundefsym →
      undefSymNameAt b k2
        ≠ some (b.readCStringFile (b.symtab.stroff + sym.n_strx))) :
    path_for_external_symbol d
        (b.readCStringFile (b.symtab.stroff + sym.n_strx))
      = some (b.readCStringVirt
          (dylib.fileoff + dylib.name_offset + b.virtualBase)) := by
  have hparse2 : parseLinkedDylibSymbolsLoop b b.dysymtab.nundefsym 0 []
      = some d := hparse
  have hname : undefSymNameAt b (0 + j)
      = some (b.readCStringFile (b.symtab.stroff + sym.n_strx)) := by
    unfold undefSymNameAt
    rw [Nat.zero_add, hsym]
    rfl
  have hlast := loop_dictGet_last b b.dysymtab.nundefsym 0 [] d j
    (b.readCStringFile (b.symtab.stroff + sym.n_strx)) hparse2 hj hname
    (by
      intro k2 hk2a hk2b
      rw [Nat.zero_add]
      exact huniq k2 hk2a hk2b)
  show dictGet d (b.readCStringFile (b.symtab.stroff + sym.n_strx)) = _
  rw [hlast]
  unfold undefSymPathAt
  rw [Nat.zero_add, hsym]
  have hdl : dylib_from_library_ordinal b
      (library_ordinal_from_n_desc sym.n_desc) = some dylib := by
    rw [dylib_from_library_ordinal_of_pos b _ hord]
    exact hdylib
  simp [hdl]

theorem claim_C9_witness :
    path_for_external_symbol [("extSym", "libfoo")]
        (b0.readCStringFile (b0.symtab.stroff + 4))
      = some (b0.readCStringVirt (16 + 24 + b0.virtualBase)) :=
  claim_C9_library_ordinal b0 [("extSym", "libfoo")] (by rfl) 0 (by decide)
    (NlistStruct.mk 4 256) (by rfl) (by decide)
    (DylibCommandStruct.mk 16 24) (by rfl)
    (by
      intro k2 h1 h2
      have h3 : b0.dysymtab.nundefsym = 1 := rfl
      rw [h3] at h2
      omega)

end Strongarm
